import Mathlib

/-
Verification of the student-dashboard feature pipeline (backend/funcs.py).

The pipeline is embedded shallowly:
- a pandas DataFrame is a list of named columns, each column a list of cells;
- a cell (Val) is a string, a rational number, or NaN (missing);
- pandas operations that raise (missing column on selection, one-hot
  encoding of an absent column, length-mismatched column assignment)
  are modelled with Option, where none is the raised exception;
- Series.map over a dict sends every value that is not a key of the dict
  (including numbers and NaN) to NaN, and never raises;
- floating point is modelled with ℚ; np.round uses round-half-to-even.
-/

namespace StudentDash

/-- Cell of a dataframe: a string, a numeric value, or NaN (missing). -/
inductive Val where
  | str (s : String)
  | num (q : ℚ)
  | na
deriving DecidableEq, Repr

/-- Dataframe: named columns in order; each column is the list of its cells. -/
abbrev DF := List (String × List Val)

/-- Column access df[c]: the first column named c, if any. -/
def lookupCol (df : DF) (c : String) : Option (List Val) :=
  (df.find? (fun p => p.1 = c)).map (fun p => p.2)

/-- Membership test c in df.columns. -/
def hasCol (df : DF) (c : String) : Bool :=
  df.any (fun p => p.1 = c)

/-- Column assignment df[c] = v: replace the column in place if present,
otherwise append it at the end (pandas semantics). -/
def setCol (df : DF) (c : String) (v : List Val) : DF :=
  if hasCol df c then df.map (fun p => if p.1 = c then (c, v) else p)
  else df ++ [(c, v)]

/-- df.drop(columns present in names, axis=1). -/
def dropCols (df : DF) (names : List String) : DF :=
  df.filter (fun p => !(names.contains p.1))

/-- Ordered list of column names. -/
def colNames (df : DF) : List String := df.map (fun p => p.1)

/-- Number of rows (length of the dataframe index, read off the first column). -/
def nrows : DF → Nat
  | [] => 0
  | p :: _ => p.2.length

/-- Selection df[names]: every requested column with its values, in the
requested order; fails (KeyError) when a name is absent. -/
def lookupAll (df : DF) : List String → Option DF
  | [] => some []
  | c :: cs => do
    let col ← lookupCol df c
    let rest ← lookupAll df cs
    pure ((c, col) :: rest)

/-- Lexicographic comparison of char lists by code point, matching the string
order pandas uses to sort the observed levels of an object column. -/
def chLt : List Char → List Char → Bool
  | [], [] => false
  | [], _ :: _ => true
  | _ :: _, [] => false
  | a :: as, b :: bs =>
    if a.toNat < b.toNat then true
    else if b.toNat < a.toNat then false
    else chLt as bs

/-- String comparison by code points. -/
def strLt (a b : String) : Bool := chLt a.data b.data

/-- BINARY_MAPPING = {'yes': 1, 'no': 0}. -/
def BINARY_MAPPING : List (String × ℚ) := [("yes", 1), ("no", 0)]

/-- SEX_MAPPING = {'F': 1, 'M': 0}. -/
def SEX_MAPPING : List (String × ℚ) := [("F", 1), ("M", 0)]

/-- ADDRESS_MAPPING = {'U': 1, 'R': 0}. -/
def ADDRESS_MAPPING : List (String × ℚ) := [("U", 1), ("R", 0)]

/-- FAMSIZE_MAPPING = {'LE3': 1, 'GT3': 0}. -/
def FAMSIZE_MAPPING : List (String × ℚ) := [("LE3", 1), ("GT3", 0)]

/-- PSTATUS_MAPPING = {'T': 1, 'A': 0}. -/
def PSTATUS_MAPPING : List (String × ℚ) := [("T", 1), ("A", 0)]

/-- Series.map(dict) on one cell: a key of the dict goes to its value, any
other cell (unknown string, number, NaN) becomes NaN. pandas never raises
here. -/
def mapVal (m : List (String × ℚ)) : Val → Val
  | .str s =>
    match m.find? (fun p => p.1 = s) with
    | some p => .num p.2
    | none => .na
  | _ => .na

/-- df[c] = df[c].map(m): fails only when column c is absent (KeyError). -/
def mapCol (df : DF) (c : String) (m : List (String × ℚ)) : Option DF := do
  let col ← lookupCol df c
  pure (setCol df c (col.map (mapVal m)))

/-- Level of a cell for one-hot purposes: NaN and numeric cells carry no
level (pandas excludes NaN from dummies; the pipeline only one-hot encodes
string columns). -/
def valLevel : Val → Option String
  | .str s => some s
  | _ => none

/-- Indicator columns of one nominal column, pd.get_dummies style with
drop_first=True, dtype=int: the observed levels sorted ascending, the first
dropped, each remaining level l becoming a column named c_l holding 1 where
the cell equals l and 0 elsewhere. -/
def dummyCols (c : String) (vs : List Val) : DF :=
  let levels := List.insertionSort (fun a b => strLt a b = true) (vs.filterMap valLevel).dedup
  (levels.drop 1).map (fun l =>
    (c ++ "_" ++ l, vs.map (fun v => if v = Val.str l then Val.num 1 else Val.num 0)))

/-- pd.get_dummies(df, columns=cs, drop_first=True, dtype=int): the encoded
columns are removed from their positions and the indicator columns appended
at the end, in the order of cs; a missing column is a KeyError. -/
def getDummies (df : DF) (cs : List String) : Option DF := do
  let datas ← lookupAll df cs
  pure (dropCols df cs ++ (datas.map (fun p => dummyCols p.1 p.2)).flatten)

/-- Elementwise addition of cells; NaN-propagating. -/
def addV : Val → Val → Val
  | .num a, .num b => .num (a + b)
  | _, _ => .na

/-- Elementwise subtraction of cells; NaN-propagating. -/
def subV : Val → Val → Val
  | .num a, .num b => .num (a - b)
  | _, _ => .na

/-- Elementwise multiplication of cells; NaN-propagating. -/
def mulV : Val → Val → Val
  | .num a, .num b => .num (a * b)
  | _, _ => .na

/-- Elementwise absolute value; NaN-propagating. -/
def absV : Val → Val
  | .num a => .num |a|
  | _ => .na

/-- Series.clip(lower=0) on one cell; NaN is left as NaN. -/
def clip0 : Val → Val
  | .num a => .num (max a 0)
  | v => v

/-- Division of a cell by a nonzero scalar; NaN-propagating. -/
def divC (v : Val) (d : ℚ) : Val :=
  match v with
  | .num a => .num (a / d)
  | _ => .na

/-- Identifier columns dropped by preprocess_data. -/
def drop_cols : List String := ["StudentID", "FirstName", "FamilyName"]

/-- The 8 yes/no habit columns. -/
def cols_yes_no : List String :=
  ["schoolsup", "famsup", "paid", "activities", "nursery", "higher", "internet", "romantic"]

/-- The 4 nominal multi-valued columns. -/
def nominal_cols : List String := ["Mjob", "Fjob", "reason", "guardian"]

/-- Body of preprocess_data before the training_columns reconciliation:
drop identifiers, apply the fixed binary mappings, one-hot encode the
nominal columns, then compute the four derived features. The derived
features read Medu, Fedu, Dalc, Walc, goout once before the four
assignments; the assigned names are distinct from the operand names, so the
values agree with the sequential reads in the source (the source reads
Total_Alcohol back after assigning it; taC is that same column). -/
def encodeSteps (df : DF) : Option DF := do
  let df1 := dropCols df drop_cols
  let df2 ← cols_yes_no.foldlM (fun d c => mapCol d c BINARY_MAPPING) df1
  let df3 ← mapCol df2 "sex" SEX_MAPPING
  let df4 ← mapCol df3 "address" ADDRESS_MAPPING
  let df5 ← mapCol df4 "famsize" FAMSIZE_MAPPING
  let df6 ← mapCol df5 "Pstatus" PSTATUS_MAPPING
  let df7 ← getDummies df6 nominal_cols
  let medu ← lookupCol df7 "Medu"
  let fedu ← lookupCol df7 "Fedu"
  let dalc ← lookupCol df7 "Dalc"
  let walc ← lookupCol df7 "Walc"
  let goout ← lookupCol df7 "goout"
  let petC := List.zipWith addV medu fedu
  let pedC := List.zipWith (fun a b => absV (subV a b)) medu fedu
  let taC := List.zipWith (fun a b => addV a (mulV b (Val.num 2))) dalc walc
  let plC := List.zipWith mulV (List.zipWith mulV taC taC) goout
  pure (setCol (setCol (setCol (setCol df7 "Parent_Edu_Total" petC)
    "Parent_Edu_Diff" pedC) "Total_Alcohol" taC) "Party_Life" plC)

/-- Reconciliation loop of preprocess_data: for col in training_columns,
if col not in df.columns then df[col] = 0 (broadcast over the index). -/
def addMissing (df : DF) (S : List String) : DF :=
  S.foldl (fun d c =>
    if hasCol d c then d else setCol d c (List.replicate (nrows d) (Val.num 0))) df

/-- Reconciliation of preprocess_data: add the missing schema columns filled
with 0, then select df[training_columns]. -/
def reconcile (df : DF) (S : List String) : Option DF :=
  lookupAll (addMissing df S) S

/-- preprocess_data(df, training_columns): the encoding steps, followed by
the schema reconciliation when training_columns is provided. -/
def preprocess_data (df : DF) (training_columns : Option (List String) := none) :
    Option DF :=
  match training_columns with
  | none => encodeSteps df
  | some S => (encodeSteps df).bind (fun d => reconcile d S)

/-- create_ideal_profile(df_raw): a copy with the actionable habit columns
overridden by constants, broadcast over the index. -/
def create_ideal_profile (df_raw : DF) : DF :=
  let n := nrows df_raw
  let d1 := setCol df_raw "studytime" (List.replicate n (Val.num 4))
  let d2 := setCol d1 "Dalc" (List.replicate n (Val.num 1))
  let d3 := setCol d2 "Walc" (List.replicate n (Val.num 1))
  let d4 := setCol d3 "absences" (List.replicate n (Val.num 0))
  setCol d4 "goout" (List.replicate n (Val.num 2))

/-- Round-half-to-even of a rational to an integer (numpy rounding). -/
def roundHalfEven (q : ℚ) : ℤ :=
  if q - ⌊q⌋ < 1/2 then ⌊q⌋
  else if (1 : ℚ)/2 < q - ⌊q⌋ then ⌊q⌋ + 1
  else if 2 ∣ ⌊q⌋ then ⌊q⌋ else ⌊q⌋ + 1

/-- np.round(q, 2). -/
def round2 (q : ℚ) : ℚ := (roundHalfEven (q * 100) : ℚ) / 100

/-- Lines 122 and 125 of the source composed: the Improvability_Margin
column is Potential_Grade - FinalGrade, then clipped at lower=0. -/
def compute_margin (pg fg : List Val) : List Val :=
  (List.zipWith subV pg fg).map clip0

/-- Line 132 of the source: Complexity_Score = 1 - Improvability_Margin / 20. -/
def compute_complexity (margin : List Val) : List Val :=
  margin.map (fun v => subV (Val.num 1) (divC v 20))

/-- generate_dashboard_data, with the external collaborators abstracted:
df_raw stands for the loaded csv, model for the unpickled regressor (one
rational prediction per row of its input), feature_cols for the unpickled
feature list. Assigning a predictions column whose length differs from the
result index raises in pandas, hence the length guard. -/
def generate_dashboard_data (df_raw : DF) (model : DF → List ℚ)
    (feature_cols : List String) : Option DF := do
  let df_ideal_raw := create_ideal_profile df_raw
  let X_ideal ← preprocess_data df_ideal_raw (some feature_cols)
  let potential_preds := model X_ideal
  let results ← lookupAll df_raw ["StudentID", "FirstName", "FamilyName", "FinalGrade"]
  if potential_preds.length = nrows results then
    let r1 := setCol results "Potential_Grade"
      (potential_preds.map (fun q => Val.num (round2 q)))
    let pg ← lookupCol r1 "Potential_Grade"
    let fg ← lookupCol r1 "FinalGrade"
    let r2 := setCol r1 "Improvability_Margin" (compute_margin pg fg)
    let m ← lookupCol r2 "Improvability_Margin"
    pure (setCol r2 "Complexity_Score" (compute_complexity m))
  else none

/-- A raw student record: the fields of the input csv that the pipeline
reads or passes through. -/
structure RawRecord where
  StudentID : String
  FirstName : String
  FamilyName : String
  sex : String
  address : String
  famsize : String
  Pstatus : String
  Medu : ℚ
  Fedu : ℚ
  Mjob : String
  Fjob : String
  reason : String
  guardian : String
  studytime : ℚ
  schoolsup : String
  famsup : String
  paid : String
  activities : String
  nursery : String
  higher : String
  internet : String
  romantic : String
  goout : ℚ
  Dalc : ℚ
  Walc : ℚ
  absences : ℚ
  FinalGrade : ℚ
deriving DecidableEq, Repr

/-- String column of a record field, one cell per record in order. -/
def sCol (f : RawRecord → String) (rs : List RawRecord) : List Val :=
  rs.map (fun r => Val.str (f r))

/-- Numeric column of a record field, one cell per record in order. -/
def nCol (f : RawRecord → ℚ) (rs : List RawRecord) : List Val :=
  rs.map (fun r => Val.num (f r))

/-- String column of a record field sent through a fixed mapping. -/
def mCol (m : List (String × ℚ)) (f : RawRecord → String) (rs : List RawRecord) :
    List Val :=
  (sCol f rs).map (mapVal m)

/-- The dataframe of a list of raw records, one row per record in order. -/
def toDF (rs : List RawRecord) : DF :=
  [("StudentID", sCol (fun r => r.StudentID) rs),
   ("FirstName", sCol (fun r => r.FirstName) rs),
   ("FamilyName", sCol (fun r => r.FamilyName) rs),
   ("sex", sCol (fun r => r.sex) rs),
   ("address", sCol (fun r => r.address) rs),
   ("famsize", sCol (fun r => r.famsize) rs),
   ("Pstatus", sCol (fun r => r.Pstatus) rs),
   ("Medu", nCol (fun r => r.Medu) rs),
   ("Fedu", nCol (fun r => r.Fedu) rs),
   ("Mjob", sCol (fun r => r.Mjob) rs),
   ("Fjob", sCol (fun r => r.Fjob) rs),
   ("reason", sCol (fun r => r.reason) rs),
   ("guardian", sCol (fun r => r.guardian) rs),
   ("studytime", nCol (fun r => r.studytime) rs),
   ("schoolsup", sCol (fun r => r.schoolsup) rs),
   ("famsup", sCol (fun r => r.famsup) rs),
   ("paid", sCol (fun r => r.paid) rs),
   ("activities", sCol (fun r => r.activities) rs),
   ("nursery", sCol (fun r => r.nursery) rs),
   ("higher", sCol (fun r => r.higher) rs),
   ("internet", sCol (fun r => r.internet) rs),
   ("romantic", sCol (fun r => r.romantic) rs),
   ("goout", nCol (fun r => r.goout) rs),
   ("Dalc", nCol (fun r => r.Dalc) rs),
   ("Walc", nCol (fun r => r.Walc) rs),
   ("absences", nCol (fun r => r.absences) rs),
   ("FinalGrade", nCol (fun r => r.FinalGrade) rs)]

/-! Basic lemmas about the dataframe operations. -/

theorem lookupCol_isSome_eq_hasCol (df : DF) (c : String) :
    (lookupCol df c).isSome = hasCol df c := by
  induction df with
  | nil => rfl
  | cons p t ih =>
    by_cases h : p.1 = c
    · simp [lookupCol, hasCol, List.find?, h]
    · simp only [lookupCol, hasCol, List.find?, List.any_cons] at *
      simp [h, ih]

theorem hasCol_of_lookupCol_eq_some {df : DF} {c : String} {col : List Val}
    (h : lookupCol df c = some col) : hasCol df c = true := by
  rw [← lookupCol_isSome_eq_hasCol, h]
  rfl

theorem lookupCol_eq_some_of_hasCol {df : DF} {c : String}
    (h : hasCol df c = true) : ∃ col, lookupCol df c = some col := by
  rw [← lookupCol_isSome_eq_hasCol] at h
  exact Option.isSome_iff_exists.mp h

theorem hasCol_setCol_self (df : DF) (c : String) (v : List Val) :
    hasCol (setCol df c v) c = true := by
  unfold setCol
  split
  · next h =>
    unfold hasCol at h ⊢
    rcases List.any_eq_true.mp h with ⟨p, hp, hpc⟩
    refine List.any_eq_true.mpr ⟨(c, v), List.mem_map.mpr ⟨p, hp, ?_⟩, by simp⟩
    simp [of_decide_eq_true hpc]
  · unfold hasCol
    simp

theorem hasCol_setCol_ne (df : DF) {c c' : String} (v : List Val) (h : c ≠ c') :
    hasCol (setCol df c' v) c = hasCol df c := by
  unfold setCol
  split
  · unfold hasCol
    rw [List.any_map]
    congr 1
    funext p
    by_cases hp : p.1 = c'
    · simp [hp, Function.comp, h.symm]
    · simp [hp, Function.comp]
  · unfold hasCol
    simp [h.symm]

theorem lookupCol_setCol_self (df : DF) (c : String) (v : List Val) :
    lookupCol (setCol df c v) c = some v := by
  unfold setCol
  split
  · next h =>
    unfold lookupCol
    induction df with
    | nil => simp [hasCol] at h
    | cons p t ih =>
      by_cases hp : p.1 = c
      · simp [List.find?, hp]
      · simp only [List.map_cons, List.find?, hp, if_neg hp]
        simp only [hasCol, List.any_cons] at h
        rcases Bool.or_eq_true_iff.mp h with h1 | h2
        · exact absurd (of_decide_eq_true h1) hp
        · simpa [hp] using ih h2
  · unfold lookupCol
    induction df with
    | nil => simp [List.find?]
    | cons p t ih =>
      next h =>
      simp only [hasCol, List.any_cons, Bool.or_eq_true_iff, not_or] at h
      simp only [List.cons_append]
      rw [List.find?_cons_of_neg _ (by simpa using h.1)]
      exact ih (by simpa [hasCol] using h.2)

theorem lookupCol_setCol_ne (df : DF) {c c' : String} (v : List Val) (h : c ≠ c') :
    lookupCol (setCol df c' v) c = lookupCol df c := by
  unfold setCol
  split
  · unfold lookupCol
    have key : ∀ t : DF,
        List.find? (fun p => decide (p.1 = c)) (t.map (fun p => if p.1 = c' then (c', v) else p)) =
        List.find? (fun p => decide (p.1 = c)) t := by
      intro t
      induction t with
      | nil => simp
      | cons p t ih =>
        by_cases hp : p.1 = c'
        · simp only [List.map_cons, if_pos hp]
          rw [List.find?_cons_of_neg _ (by simpa using fun hc : c' = c => h hc.symm),
            List.find?_cons_of_neg _ (by rw [hp]; simpa using fun hc : c' = c => h hc.symm)]
          exact ih
        · simp only [List.map_cons, if_neg hp]
          by_cases hc : p.1 = c
          · rw [List.find?_cons_of_pos _ (by simpa using hc),
              List.find?_cons_of_pos _ (by simpa using hc)]
          · rw [List.find?_cons_of_neg _ (by simpa using hc),
              List.find?_cons_of_neg _ (by simpa using hc)]
            exact ih
    rw [key]
  · unfold lookupCol
    rw [List.find?_append]
    by_cases hc : hasCol df c
    · rcases lookupCol_eq_some_of_hasCol hc with ⟨col, hcol⟩
      unfold lookupCol at hcol
      rcases Option.map_eq_some'.mp hcol with ⟨p, hp, hpv⟩
      simp [hp]
    · have : df.find? (fun p => p.1 = c) = none := by
        rw [List.find?_eq_none]
        intro p hp
        simp only [decide_eq_true_eq]
        intro hpc
        apply hc
        exact List.any_eq_true.mpr ⟨p, hp, by simp [hpc]⟩
      simp [this, List.find?, h.symm]

theorem colNames_setCol_of_hasCol {df : DF} {c : String} (v : List Val)
    (h : hasCol df c = true) : colNames (setCol df c v) = colNames df := by
  unfold setCol
  rw [if_pos h]
  unfold colNames
  rw [List.map_map]
  congr 1
  funext p
  by_cases hp : p.1 = c
  · simp [hp, Function.comp]
  · simp [hp, Function.comp]

theorem nrows_setCol_ne_head {p : String × List Val} {t : DF} {c : String}
    (v : List Val) (h : p.1 ≠ c) : nrows (setCol (p :: t) c v) = nrows (p :: t) := by
  unfold setCol
  split
  · simp [nrows, h]
  · simp [nrows]

/-! Explicit shape of the encoding steps, over opaque column values. -/

/-- Dataframe with the raw feature columns (identifiers already dropped),
the cell lists taken as parameters. -/
def varDF (sex adr fsz pst medu fedu mjob fjob rea gua stt ssup fsup pad act nur hig inet rom goo dalc walc absn fg : List Val) : DF :=
  [("sex", sex),
   ("address", adr),
   ("famsize", fsz),
   ("Pstatus", pst),
   ("Medu", medu),
   ("Fedu", fedu),
   ("Mjob", mjob),
   ("Fjob", fjob),
   ("reason", rea),
   ("guardian", gua),
   ("studytime", stt),
   ("schoolsup", ssup),
   ("famsup", fsup),
   ("paid", pad),
   ("activities", act),
   ("nursery", nur),
   ("higher", hig),
   ("internet", inet),
   ("romantic", rom),
   ("goout", goo),
   ("Dalc", dalc),
   ("Walc", walc),
   ("absences", absn),
   ("FinalGrade", fg)]

/-- Dataframe after one-hot encoding: the four nominal columns removed and
their indicator columns appended at the end. -/
def varDF2 (sex adr fsz pst medu fedu mjob fjob rea gua stt ssup fsup pad act nur hig inet rom goo dalc walc absn fg : List Val) : DF :=
  [("sex", sex),
   ("address", adr),
   ("famsize", fsz),
   ("Pstatus", pst),
   ("Medu", medu),
   ("Fedu", fedu),
   ("studytime", stt),
   ("schoolsup", ssup),
   ("famsup", fsup),
   ("paid", pad),
   ("activities", act),
   ("nursery", nur),
   ("higher", hig),
   ("internet", inet),
   ("romantic", rom),
   ("goout", goo),
   ("Dalc", dalc),
   ("Walc", walc),
   ("absences", absn),
   ("FinalGrade", fg)]
  ++ ([("Mjob", mjob), ("Fjob", fjob), ("reason", rea), ("guardian", gua)].map
      (fun p => dummyCols p.1 p.2)).flatten

/-- Applying the schoolsup mapping to the varDF shape. -/
theorem mapCol_varDF_schoolsup (sex adr fsz pst medu fedu mjob fjob rea gua stt ssup fsup pad act nur hig inet rom goo dalc walc absn fg : List Val) :
    mapCol (varDF sex adr fsz pst medu fedu mjob fjob rea gua stt ssup fsup pad act nur hig inet rom goo dalc walc absn fg) "schoolsup" BINARY_MAPPING
    = some (varDF sex adr fsz pst medu fedu mjob fjob rea gua stt (ssup.map (mapVal BINARY_MAPPING)) fsup pad act nur hig inet rom goo dalc walc absn fg) := by
  simp [varDF, mapCol, lookupCol, List.find?, setCol, hasCol]

/-- Applying the famsup mapping to the varDF shape. -/
theorem mapCol_varDF_famsup (sex adr fsz pst medu fedu mjob fjob rea gua stt ssup fsup pad act nur hig inet rom goo dalc walc absn fg : List Val) :
    mapCol (varDF sex adr fsz pst medu fedu mjob fjob rea gua stt (ssup.map (mapVal BINARY_MAPPING)) fsup pad act nur hig inet rom goo dalc walc absn fg) "famsup" BINARY_MAPPING
    = some (varDF sex adr fsz pst medu fedu mjob fjob rea gua stt (ssup.map (mapVal BINARY_MAPPING)) (fsup.map (mapVal BINARY_MAPPING)) pad act nur hig inet rom goo dalc walc absn fg) := by
  simp [varDF, mapCol, lookupCol, List.find?, setCol, hasCol]

/-- Applying the paid mapping to the varDF shape. -/
theorem mapCol_varDF_paid (sex adr fsz pst medu fedu mjob fjob rea gua stt ssup fsup pad act nur hig inet rom goo dalc walc absn fg : List Val) :
    mapCol (varDF sex adr fsz pst medu fedu mjob fjob rea gua stt (ssup.map (mapVal BINARY_MAPPING)) (fsup.map (mapVal BINARY_MAPPING)) pad act nur hig inet rom goo dalc walc absn fg) "paid" BINARY_MAPPING
    = some (varDF sex adr fsz pst medu fedu mjob fjob rea gua stt (ssup.map (mapVal BINARY_MAPPING)) (fsup.map (mapVal BINARY_MAPPING)) (pad.map (mapVal BINARY_MAPPING)) act nur hig inet rom goo dalc walc absn fg) := by
  simp [varDF, mapCol, lookupCol, List.find?, setCol, hasCol]

/-- Applying the activities mapping to the varDF shape. -/
theorem mapCol_varDF_activities (sex adr fsz pst medu fedu mjob fjob rea gua stt ssup fsup pad act nur hig inet rom goo dalc walc absn fg : List Val) :
    mapCol (varDF sex adr fsz pst medu fedu mjob fjob rea gua stt (ssup.map (mapVal BINARY_MAPPING)) (fsup.map (mapVal BINARY_MAPPING)) (pad.map (mapVal BINARY_MAPPING)) act nur hig inet rom goo dalc walc absn fg) "activities" BINARY_MAPPING
    = some (varDF sex adr fsz pst medu fedu mjob fjob rea gua stt (ssup.map (mapVal BINARY_MAPPING)) (fsup.map (mapVal BINARY_MAPPING)) (pad.map (mapVal BINARY_MAPPING)) (act.map (mapVal BINARY_MAPPING)) nur hig inet rom goo dalc walc absn fg) := by
  simp [varDF, mapCol, lookupCol, List.find?, setCol, hasCol]

/-- Applying the nursery mapping to the varDF shape. -/
theorem mapCol_varDF_nursery (sex adr fsz pst medu fedu mjob fjob rea gua stt ssup fsup pad act nur hig inet rom goo dalc walc absn fg : List Val) :
    mapCol (varDF sex adr fsz pst medu fedu mjob fjob rea gua stt (ssup.map (mapVal BINARY_MAPPING)) (fsup.map (mapVal BINARY_MAPPING)) (pad.map (mapVal BINARY_MAPPING)) (act.map (mapVal BINARY_MAPPING)) nur hig inet rom goo dalc walc absn fg) "nursery" BINARY_MAPPING
    = some (varDF sex adr fsz pst medu fedu mjob fjob rea gua stt (ssup.map (mapVal BINARY_MAPPING)) (fsup.map (mapVal BINARY_MAPPING)) (pad.map (mapVal BINARY_MAPPING)) (act.map (mapVal BINARY_MAPPING)) (nur.map (mapVal BINARY_MAPPING)) hig inet rom goo dalc walc absn fg) := by
  simp [varDF, mapCol, lookupCol, List.find?, setCol, hasCol]

/-- Applying the higher mapping to the varDF shape. -/
theorem mapCol_varDF_higher (sex adr fsz pst medu fedu mjob fjob rea gua stt ssup fsup pad act nur hig inet rom goo dalc walc absn fg : List Val) :
    mapCol (varDF sex adr fsz pst medu fedu mjob fjob rea gua stt (ssup.map (mapVal BINARY_MAPPING)) (fsup.map (mapVal BINARY_MAPPING)) (pad.map (mapVal BINARY_MAPPING)) (act.map (mapVal BINARY_MAPPING)) (nur.map (mapVal BINARY_MAPPING)) hig inet rom goo dalc walc absn fg) "higher" BINARY_MAPPING
    = some (varDF sex adr fsz pst medu fedu mjob fjob rea gua stt (ssup.map (mapVal BINARY_MAPPING)) (fsup.map (mapVal BINARY_MAPPING)) (pad.map (mapVal BINARY_MAPPING)) (act.map (mapVal BINARY_MAPPING)) (nur.map (mapVal BINARY_MAPPING)) (hig.map (mapVal BINARY_MAPPING)) inet rom goo dalc walc absn fg) := by
  simp [varDF, mapCol, lookupCol, List.find?, setCol, hasCol]

/-- Applying the internet mapping to the varDF shape. -/
theorem mapCol_varDF_internet (sex adr fsz pst medu fedu mjob fjob rea gua stt ssup fsup pad act nur hig inet rom goo dalc walc absn fg : List Val) :
    mapCol (varDF sex adr fsz pst medu fedu mjob fjob rea gua stt (ssup.map (mapVal BINARY_MAPPING)) (fsup.map (mapVal BINARY_MAPPING)) (pad.map (mapVal BINARY_MAPPING)) (act.map (mapVal BINARY_MAPPING)) (nur.map (mapVal BINARY_MAPPING)) (hig.map (mapVal BINARY_MAPPING)) inet rom goo dalc walc absn fg) "internet" BINARY_MAPPING
    = some (varDF sex adr fsz pst medu fedu mjob fjob rea gua stt (ssup.map (mapVal BINARY_MAPPING)) (fsup.map (mapVal BINARY_MAPPING)) (pad.map (mapVal BINARY_MAPPING)) (act.map (mapVal BINARY_MAPPING)) (nur.map (mapVal BINARY_MAPPING)) (hig.map (mapVal BINARY_MAPPING)) (inet.map (mapVal BINARY_MAPPING)) rom goo dalc walc absn fg) := by
  simp [varDF, mapCol, lookupCol, List.find?, setCol, hasCol]

/-- Applying the romantic mapping to the varDF shape. -/
theorem mapCol_varDF_romantic (sex adr fsz pst medu fedu mjob fjob rea gua stt ssup fsup pad act nur hig inet rom goo dalc walc absn fg : List Val) :
    mapCol (varDF sex adr fsz pst medu fedu mjob fjob rea gua stt (ssup.map (mapVal BINARY_MAPPING)) (fsup.map (mapVal BINARY_MAPPING)) (pad.map (mapVal BINARY_MAPPING)) (act.map (mapVal BINARY_MAPPING)) (nur.map (mapVal BINARY_MAPPING)) (hig.map (mapVal BINARY_MAPPING)) (inet.map (mapVal BINARY_MAPPING)) rom goo dalc walc absn fg) "romantic" BINARY_MAPPING
    = some (varDF sex adr fsz pst medu fedu mjob fjob rea gua stt (ssup.map (mapVal BINARY_MAPPING)) (fsup.map (mapVal BINARY_MAPPING)) (pad.map (mapVal BINARY_MAPPING)) (act.map (mapVal BINARY_MAPPING)) (nur.map (mapVal BINARY_MAPPING)) (hig.map (mapVal BINARY_MAPPING)) (inet.map (mapVal BINARY_MAPPING)) (rom.map (mapVal BINARY_MAPPING)) goo dalc walc absn fg) := by
  simp [varDF, mapCol, lookupCol, List.find?, setCol, hasCol]

/-- Applying the sex mapping to the varDF shape. -/
theorem mapCol_varDF_sex (sex adr fsz pst medu fedu mjob fjob rea gua stt ssup fsup pad act nur hig inet rom goo dalc walc absn fg : List Val) :
    mapCol (varDF sex adr fsz pst medu fedu mjob fjob rea gua stt (ssup.map (mapVal BINARY_MAPPING)) (fsup.map (mapVal BINARY_MAPPING)) (pad.map (mapVal BINARY_MAPPING)) (act.map (mapVal BINARY_MAPPING)) (nur.map (mapVal BINARY_MAPPING)) (hig.map (mapVal BINARY_MAPPING)) (inet.map (mapVal BINARY_MAPPING)) (rom.map (mapVal BINARY_MAPPING)) goo dalc walc absn fg) "sex" SEX_MAPPING
    = some (varDF (sex.map (mapVal SEX_MAPPING)) adr fsz pst medu fedu mjob fjob rea gua stt (ssup.map (mapVal BINARY_MAPPING)) (fsup.map (mapVal BINARY_MAPPING)) (pad.map (mapVal BINARY_MAPPING)) (act.map (mapVal BINARY_MAPPING)) (nur.map (mapVal BINARY_MAPPING)) (hig.map (mapVal BINARY_MAPPING)) (inet.map (mapVal BINARY_MAPPING)) (rom.map (mapVal BINARY_MAPPING)) goo dalc walc absn fg) := by
  simp [varDF, mapCol, lookupCol, List.find?, setCol, hasCol]

/-- Applying the address mapping to the varDF shape. -/
theorem mapCol_varDF_address (sex adr fsz pst medu fedu mjob fjob rea gua stt ssup fsup pad act nur hig inet rom goo dalc walc absn fg : List Val) :
    mapCol (varDF (sex.map (mapVal SEX_MAPPING)) adr fsz pst medu fedu mjob fjob rea gua stt (ssup.map (mapVal BINARY_MAPPING)) (fsup.map (mapVal BINARY_MAPPING)) (pad.map (mapVal BINARY_MAPPING)) (act.map (mapVal BINARY_MAPPING)) (nur.map (mapVal BINARY_MAPPING)) (hig.map (mapVal BINARY_MAPPING)) (inet.map (mapVal BINARY_MAPPING)) (rom.map (mapVal BINARY_MAPPING)) goo dalc walc absn fg) "address" ADDRESS_MAPPING
    = some (varDF (sex.map (mapVal SEX_MAPPING)) (adr.map (mapVal ADDRESS_MAPPING)) fsz pst medu fedu mjob fjob rea gua stt (ssup.map (mapVal BINARY_MAPPING)) (fsup.map (mapVal BINARY_MAPPING)) (pad.map (mapVal BINARY_MAPPING)) (act.map (mapVal BINARY_MAPPING)) (nur.map (mapVal BINARY_MAPPING)) (hig.map (mapVal BINARY_MAPPING)) (inet.map (mapVal BINARY_MAPPING)) (rom.map (mapVal BINARY_MAPPING)) goo dalc walc absn fg) := by
  simp [varDF, mapCol, lookupCol, List.find?, setCol, hasCol]

/-- Applying the famsize mapping to the varDF shape. -/
theorem mapCol_varDF_famsize (sex adr fsz pst medu fedu mjob fjob rea gua stt ssup fsup pad act nur hig inet rom goo dalc walc absn fg : List Val) :
    mapCol (varDF (sex.map (mapVal SEX_MAPPING)) (adr.map (mapVal ADDRESS_MAPPING)) fsz pst medu fedu mjob fjob rea gua stt (ssup.map (mapVal BINARY_MAPPING)) (fsup.map (mapVal BINARY_MAPPING)) (pad.map (mapVal BINARY_MAPPING)) (act.map (mapVal BINARY_MAPPING)) (nur.map (mapVal BINARY_MAPPING)) (hig.map (mapVal BINARY_MAPPING)) (inet.map (mapVal BINARY_MAPPING)) (rom.map (mapVal BINARY_MAPPING)) goo dalc walc absn fg) "famsize" FAMSIZE_MAPPING
    = some (varDF (sex.map (mapVal SEX_MAPPING)) (adr.map (mapVal ADDRESS_MAPPING)) (fsz.map (mapVal FAMSIZE_MAPPING)) pst medu fedu mjob fjob rea gua stt (ssup.map (mapVal BINARY_MAPPING)) (fsup.map (mapVal BINARY_MAPPING)) (pad.map (mapVal BINARY_MAPPING)) (act.map (mapVal BINARY_MAPPING)) (nur.map (mapVal BINARY_MAPPING)) (hig.map (mapVal BINARY_MAPPING)) (inet.map (mapVal BINARY_MAPPING)) (rom.map (mapVal BINARY_MAPPING)) goo dalc walc absn fg) := by
  simp [varDF, mapCol, lookupCol, List.find?, setCol, hasCol]

/-- Applying the Pstatus mapping to the varDF shape. -/
theorem mapCol_varDF_Pstatus (sex adr fsz pst medu fedu mjob fjob rea gua stt ssup fsup pad act nur hig inet rom goo dalc walc absn fg : List Val) :
    mapCol (varDF (sex.map (mapVal SEX_MAPPING)) (adr.map (mapVal ADDRESS_MAPPING)) (fsz.map (mapVal FAMSIZE_MAPPING)) pst medu fedu mjob fjob rea gua stt (ssup.map (mapVal BINARY_MAPPING)) (fsup.map (mapVal BINARY_MAPPING)) (pad.map (mapVal BINARY_MAPPING)) (act.map (mapVal BINARY_MAPPING)) (nur.map (mapVal BINARY_MAPPING)) (hig.map (mapVal BINARY_MAPPING)) (inet.map (mapVal BINARY_MAPPING)) (rom.map (mapVal BINARY_MAPPING)) goo dalc walc absn fg) "Pstatus" PSTATUS_MAPPING
    = some (varDF (sex.map (mapVal SEX_MAPPING)) (adr.map (mapVal ADDRESS_MAPPING)) (fsz.map (mapVal FAMSIZE_MAPPING)) (pst.map (mapVal PSTATUS_MAPPING)) medu fedu mjob fjob rea gua stt (ssup.map (mapVal BINARY_MAPPING)) (fsup.map (mapVal BINARY_MAPPING)) (pad.map (mapVal BINARY_MAPPING)) (act.map (mapVal BINARY_MAPPING)) (nur.map (mapVal BINARY_MAPPING)) (hig.map (mapVal BINARY_MAPPING)) (inet.map (mapVal BINARY_MAPPING)) (rom.map (mapVal BINARY_MAPPING)) goo dalc walc absn fg) := by
  simp [varDF, mapCol, lookupCol, List.find?, setCol, hasCol]

/-- The eight yes/no mappings applied by the fold, on the varDF shape. -/
theorem foldlM_yes_no (sex adr fsz pst medu fedu mjob fjob rea gua stt ssup fsup pad act nur hig inet rom goo dalc walc absn fg : List Val) :
    cols_yes_no.foldlM (fun d c => mapCol d c BINARY_MAPPING) (varDF sex adr fsz pst medu fedu mjob fjob rea gua stt ssup fsup pad act nur hig inet rom goo dalc walc absn fg)
    = some (varDF sex adr fsz pst medu fedu mjob fjob rea gua stt (ssup.map (mapVal BINARY_MAPPING)) (fsup.map (mapVal BINARY_MAPPING)) (pad.map (mapVal BINARY_MAPPING)) (act.map (mapVal BINARY_MAPPING)) (nur.map (mapVal BINARY_MAPPING)) (hig.map (mapVal BINARY_MAPPING)) (inet.map (mapVal BINARY_MAPPING)) (rom.map (mapVal BINARY_MAPPING)) goo dalc walc absn fg) := by
  simp only [cols_yes_no, List.foldlM, mapCol_varDF_schoolsup, mapCol_varDF_famsup,
    mapCol_varDF_paid, mapCol_varDF_activities, mapCol_varDF_nursery,
    mapCol_varDF_higher, mapCol_varDF_internet, mapCol_varDF_romantic,
    Option.bind_eq_bind, Option.some_bind, Option.pure_def]

/-- Dropping the identifier columns of a raw dataframe gives the varDF shape. -/
theorem dropCols_raw27 (sid fn fam sex adr fsz pst medu fedu mjob fjob rea gua stt ssup fsup pad act nur hig inet rom goo dalc walc absn fg : List Val) :
    dropCols
      [("StudentID", sid), ("FirstName", fn), ("FamilyName", fam),
       ("sex", sex), ("address", adr), ("famsize", fsz), ("Pstatus", pst),
       ("Medu", medu), ("Fedu", fedu), ("Mjob", mjob), ("Fjob", fjob),
       ("reason", rea), ("guardian", gua), ("studytime", stt),
       ("schoolsup", ssup), ("famsup", fsup), ("paid", pad),
       ("activities", act), ("nursery", nur), ("higher", hig),
       ("internet", inet), ("romantic", rom), ("goout", goo),
       ("Dalc", dalc), ("Walc", walc), ("absences", absn), ("FinalGrade", fg)]
      drop_cols
    = varDF sex adr fsz pst medu fedu mjob fjob rea gua stt ssup fsup pad act nur hig inet rom goo dalc walc absn fg := by
  simp [varDF, dropCols, drop_cols]

/-- One-hot encoding the four nominal columns of the varDF shape. -/
theorem getDummies_varDF (sex adr fsz pst medu fedu mjob fjob rea gua stt ssup fsup pad act nur hig inet rom goo dalc walc absn fg : List Val) :
    getDummies (varDF sex adr fsz pst medu fedu mjob fjob rea gua stt ssup fsup pad act nur hig inet rom goo dalc walc absn fg) nominal_cols
    = some (varDF2 sex adr fsz pst medu fedu mjob fjob rea gua stt ssup fsup pad act nur hig inet rom goo dalc walc absn fg) := by
  simp [varDF, varDF2, getDummies, nominal_cols, lookupAll, lookupCol, List.find?, dropCols]

/-- Reading the Medu column of the varDF2 shape. -/
theorem lookupCol_varDF2_Medu (sex adr fsz pst medu fedu mjob fjob rea gua stt ssup fsup pad act nur hig inet rom goo dalc walc absn fg : List Val) :
    lookupCol (varDF2 sex adr fsz pst medu fedu mjob fjob rea gua stt ssup fsup pad act nur hig inet rom goo dalc walc absn fg) "Medu" = some medu := by
  simp [varDF2, lookupCol, List.find?]

/-- Reading the Fedu column of the varDF2 shape. -/
theorem lookupCol_varDF2_Fedu (sex adr fsz pst medu fedu mjob fjob rea gua stt ssup fsup pad act nur hig inet rom goo dalc walc absn fg : List Val) :
    lookupCol (varDF2 sex adr fsz pst medu fedu mjob fjob rea gua stt ssup fsup pad act nur hig inet rom goo dalc walc absn fg) "Fedu" = some fedu := by
  simp [varDF2, lookupCol, List.find?]

/-- Reading the Dalc column of the varDF2 shape. -/
theorem lookupCol_varDF2_Dalc (sex adr fsz pst medu fedu mjob fjob rea gua stt ssup fsup pad act nur hig inet rom goo dalc walc absn fg : List Val) :
    lookupCol (varDF2 sex adr fsz pst medu fedu mjob fjob rea gua stt ssup fsup pad act nur hig inet rom goo dalc walc absn fg) "Dalc" = some dalc := by
  simp [varDF2, lookupCol, List.find?]

/-- Reading the Walc column of the varDF2 shape. -/
theorem lookupCol_varDF2_Walc (sex adr fsz pst medu fedu mjob fjob rea gua stt ssup fsup pad act nur hig inet rom goo dalc walc absn fg : List Val) :
    lookupCol (varDF2 sex adr fsz pst medu fedu mjob fjob rea gua stt ssup fsup pad act nur hig inet rom goo dalc walc absn fg) "Walc" = some walc := by
  simp [varDF2, lookupCol, List.find?]

/-- Reading the goout column of the varDF2 shape. -/
theorem lookupCol_varDF2_goout (sex adr fsz pst medu fedu mjob fjob rea gua stt ssup fsup pad act nur hig inet rom goo dalc walc absn fg : List Val) :
    lookupCol (varDF2 sex adr fsz pst medu fedu mjob fjob rea gua stt ssup fsup pad act nur hig inet rom goo dalc walc absn fg) "goout" = some goo := by
  simp [varDF2, lookupCol, List.find?]

/-- The dataframe right after one-hot encoding a raw-record dataframe:
identifiers dropped, the twelve fixed mappings applied in place, nominal
columns replaced by the appended indicator columns. -/
def encodedRaw (rs : List RawRecord) : DF :=
  varDF2 (mCol SEX_MAPPING (fun r => r.sex) rs)
    (mCol ADDRESS_MAPPING (fun r => r.address) rs)
    (mCol FAMSIZE_MAPPING (fun r => r.famsize) rs)
    (mCol PSTATUS_MAPPING (fun r => r.Pstatus) rs)
    (nCol (fun r => r.Medu) rs) (nCol (fun r => r.Fedu) rs)
    (sCol (fun r => r.Mjob) rs) (sCol (fun r => r.Fjob) rs)
    (sCol (fun r => r.reason) rs) (sCol (fun r => r.guardian) rs)
    (nCol (fun r => r.studytime) rs)
    (mCol BINARY_MAPPING (fun r => r.schoolsup) rs)
    (mCol BINARY_MAPPING (fun r => r.famsup) rs)
    (mCol BINARY_MAPPING (fun r => r.paid) rs)
    (mCol BINARY_MAPPING (fun r => r.activities) rs)
    (mCol BINARY_MAPPING (fun r => r.nursery) rs)
    (mCol BINARY_MAPPING (fun r => r.higher) rs)
    (mCol BINARY_MAPPING (fun r => r.internet) rs)
    (mCol BINARY_MAPPING (fun r => r.romantic) rs)
    (nCol (fun r => r.goout) rs) (nCol (fun r => r.Dalc) rs)
    (nCol (fun r => r.Walc) rs) (nCol (fun r => r.absences) rs)
    (nCol (fun r => r.FinalGrade) rs)

/-- Parent_Edu_Total column over raw records. -/
def petCol (rs : List RawRecord) : List Val :=
  List.zipWith addV (nCol (fun r => r.Medu) rs) (nCol (fun r => r.Fedu) rs)

/-- Parent_Edu_Diff column over raw records. -/
def pedCol (rs : List RawRecord) : List Val :=
  List.zipWith (fun a b => absV (subV a b))
    (nCol (fun r => r.Medu) rs) (nCol (fun r => r.Fedu) rs)

/-- Total_Alcohol column over raw records. -/
def taCol (rs : List RawRecord) : List Val :=
  List.zipWith (fun a b => addV a (mulV b (Val.num 2)))
    (nCol (fun r => r.Dalc) rs) (nCol (fun r => r.Walc) rs)

/-- Party_Life column over raw records. -/
def plCol (rs : List RawRecord) : List Val :=
  List.zipWith mulV (List.zipWith mulV (taCol rs) (taCol rs))
    (nCol (fun r => r.goout) rs)

/-- Full result of the encoding steps on a raw-record dataframe. -/
def finalEnc (rs : List RawRecord) : DF :=
  setCol (setCol (setCol (setCol (encodedRaw rs) "Parent_Edu_Total" (petCol rs))
    "Parent_Edu_Diff" (pedCol rs)) "Total_Alcohol" (taCol rs)) "Party_Life" (plCol rs)

set_option maxHeartbeats 1600000 in
/-- The encoding steps never fail on a raw-record dataframe, and produce
exactly the explicit encoded form. -/
theorem encodeSteps_toDF (rs : List RawRecord) :
    encodeSteps (toDF rs) = some (finalEnc rs) := by
  simp only [encodeSteps, toDF, dropCols_raw27, foldlM_yes_no, mapCol_varDF_sex,
    mapCol_varDF_address, mapCol_varDF_famsize, mapCol_varDF_Pstatus,
    getDummies_varDF, lookupCol_varDF2_Medu, lookupCol_varDF2_Fedu,
    lookupCol_varDF2_Dalc, lookupCol_varDF2_Walc, lookupCol_varDF2_goout,
    Option.some_bind, Option.pure_def, Option.bind_eq_bind]
  rfl

/-! Lemmas about the schema reconciliation. -/

theorem hasCol_setCol_mono {df : DF} {c : String} (c' : String) (v : List Val)
    (h : hasCol df c = true) : hasCol (setCol df c' v) c = true := by
  by_cases hc : c = c'
  · subst hc
    exact hasCol_setCol_self df c v
  · rw [hasCol_setCol_ne df v hc]
    exact h

theorem nrows_setCol_replicate (df : DF) (c : String) (x : Val) :
    nrows (setCol df c (List.replicate (nrows df) x)) = nrows df := by
  unfold setCol
  split
  · cases df with
    | nil => rfl
    | cons p t =>
      by_cases hp : p.1 = c
      · simp [nrows, hp]
      · simp [nrows, hp]
  · cases df with
    | nil => simp [nrows]
    | cons p t => simp [nrows]

theorem hasCol_addMissing_of_hasCol {c : String} (S : List String) {df : DF}
    (h : hasCol df c = true) : hasCol (addMissing df S) c = true := by
  induction S generalizing df with
  | nil => exact h
  | cons c' S' ih =>
    unfold addMissing at *
    simp only [List.foldl_cons]
    apply ih
    split
    · exact h
    · exact hasCol_setCol_mono c' _ h

theorem hasCol_addMissing_of_mem {c : String} {S : List String} (df : DF)
    (h : c ∈ S) : hasCol (addMissing df S) c = true := by
  induction S generalizing df with
  | nil => cases h
  | cons c' S' ih =>
    unfold addMissing at *
    simp only [List.foldl_cons]
    rcases List.mem_cons.mp h with hc | hc
    · subst hc
      apply hasCol_addMissing_of_hasCol S'
      split
      · next hh => exact hh
      · exact hasCol_setCol_self df c _
    · exact ih _ hc

theorem nrows_addMissing (df : DF) (S : List String) :
    nrows (addMissing df S) = nrows df := by
  induction S generalizing df with
  | nil => rfl
  | cons c' S' ih =>
    unfold addMissing at *
    simp only [List.foldl_cons]
    split
    · exact ih df
    · rw [ih (setCol df c' (List.replicate (nrows df) (Val.num 0)))]
      exact nrows_setCol_replicate df c' (Val.num 0)

theorem lookupCol_addMissing_of_hasCol {c : String} (S : List String) {df : DF}
    (h : hasCol df c = true) : lookupCol (addMissing df S) c = lookupCol df c := by
  induction S generalizing df with
  | nil => rfl
  | cons c' S' ih =>
    unfold addMissing at *
    simp only [List.foldl_cons]
    split
    · exact ih h
    · next hc' =>
      have hne : c ≠ c' := by
        intro he
        subst he
        rw [h] at hc'
        exact hc' rfl
      rw [ih (hasCol_setCol_mono c' _ h)]
      exact lookupCol_setCol_ne df _ hne

theorem addMissing_cons (df : DF) (c' : String) (S' : List String) :
    addMissing df (c' :: S')
    = addMissing
        (if hasCol df c' then df else setCol df c' (List.replicate (nrows df) (Val.num 0)))
        S' := rfl

theorem lookupCol_addMissing_of_missing {c : String} {S : List String} {df : DF}
    (h : hasCol df c = false) (hm : c ∈ S) :
    lookupCol (addMissing df S) c = some (List.replicate (nrows df) (Val.num 0)) := by
  induction S generalizing df with
  | nil => cases hm
  | cons c' S' ih =>
    rw [addMissing_cons]
    by_cases hc : c = c'
    · subst hc
      rw [h]
      simp only [Bool.false_eq_true, if_false]
      rw [lookupCol_addMissing_of_hasCol S' (hasCol_setCol_self df c _)]
      exact lookupCol_setCol_self df c _
    · rcases List.mem_cons.mp hm with he | hm'
      · exact absurd he hc
      · split
        · exact ih h hm'
        · rw [ih (by rw [hasCol_setCol_ne df _ hc]; exact h) hm',
            nrows_setCol_replicate df c' (Val.num 0)]

theorem lookupAll_eq_some {df : DF} {S : List String}
    (h : ∀ c ∈ S, hasCol df c = true) :
    lookupAll df S = some (S.map (fun c => (c, (lookupCol df c).getD []))) := by
  induction S with
  | nil => rfl
  | cons c S' ih =>
    rcases lookupCol_eq_some_of_hasCol (h c (List.mem_cons_self c S')) with ⟨col, hcol⟩
    unfold lookupAll
    rw [hcol, ih (fun c hc => h c (List.mem_cons_of_mem _ hc))]
    simp [hcol]

theorem lookupCol_keyedMap {S : List String} {c : String} (g : String → List Val)
    (h : c ∈ S) : lookupCol (S.map (fun c => (c, g c))) c = some (g c) := by
  induction S with
  | nil => cases h
  | cons c' S' ih =>
    simp only [List.map_cons]
    by_cases hc : c' = c
    · subst hc
      unfold lookupCol
      rw [List.find?_cons_of_pos _ (by simp)]
      rfl
    · rcases List.mem_cons.mp h with he | hm
      · exact absurd he.symm hc
      · unfold lookupCol at *
        rw [List.find?_cons_of_neg _ (by simpa using hc)]
        exact ih hm

theorem reconcile_eq (df : DF) (S : List String) :
    reconcile df S
    = some (S.map (fun c => (c, (lookupCol (addMissing df S) c).getD []))) :=
  lookupAll_eq_some (fun c hc => hasCol_addMissing_of_mem df hc)

theorem colNames_keyedMap (S : List String) (g : String → List Val) :
    colNames (S.map (fun c => (c, g c))) = S := by
  unfold colNames
  rw [List.map_map]
  exact List.map_id S

/-! Row count of the explicit encoded form. -/

theorem head?_setCol_ne {df : DF} {p : String × List Val} {c : String} (v : List Val)
    (h : df.head? = some p) (hne : p.1 ≠ c) : (setCol df c v).head? = some p := by
  cases df with
  | nil => cases h
  | cons q t =>
    have hq : q = p := by simpa using h
    subst hq
    unfold setCol
    split
    · simp [hne]
    · simp

theorem nrows_eq_of_head? {df : DF} {p : String × List Val}
    (h : df.head? = some p) : nrows df = p.2.length := by
  cases df with
  | nil => cases h
  | cons q t =>
    have hq : q = p := by simpa using h
    subst hq
    rfl

theorem head?_encodedRaw (rs : List RawRecord) :
    (encodedRaw rs).head? = some ("sex", mCol SEX_MAPPING (fun r => r.sex) rs) := by
  simp [encodedRaw, varDF2]

theorem head?_finalEnc (rs : List RawRecord) :
    (finalEnc rs).head? = some ("sex", mCol SEX_MAPPING (fun r => r.sex) rs) := by
  unfold finalEnc
  exact head?_setCol_ne _
    (head?_setCol_ne _
      (head?_setCol_ne _
        (head?_setCol_ne _ (head?_encodedRaw rs) (by simp))
        (by simp))
      (by simp))
    (by simp)

theorem nrows_finalEnc (rs : List RawRecord) : nrows (finalEnc rs) = rs.length := by
  rw [nrows_eq_of_head? (head?_finalEnc rs)]
  simp [mCol, sCol]

/-! Lemmas about preprocess_data on raw-record dataframes. -/

theorem preprocess_data_none (df : DF) : preprocess_data df none = encodeSteps df := rfl

theorem preprocess_data_some (df : DF) (S : List String) :
    preprocess_data df (some S) = (encodeSteps df).bind (fun d => reconcile d S) := rfl

theorem preprocess_toDF_some (rs : List RawRecord) (S : List String) :
    preprocess_data (toDF rs) (some S)
    = some (S.map (fun c => (c, (lookupCol (addMissing (finalEnc rs) S) c).getD []))) := by
  rw [preprocess_data_some, encodeSteps_toDF, Option.some_bind, reconcile_eq]

theorem lookupCol_finalEnc_schoolsup (rs : List RawRecord) :
    lookupCol (finalEnc rs) "schoolsup"
    = some (mCol BINARY_MAPPING (fun r => r.schoolsup) rs) := by
  unfold finalEnc
  rw [lookupCol_setCol_ne _ _ (by decide), lookupCol_setCol_ne _ _ (by decide),
    lookupCol_setCol_ne _ _ (by decide), lookupCol_setCol_ne _ _ (by decide)]
  simp [encodedRaw, varDF2, lookupCol, List.find?]

theorem lookupCol_finalEnc_TA (rs : List RawRecord) :
    lookupCol (finalEnc rs) "Total_Alcohol" = some (taCol rs) := by
  unfold finalEnc
  rw [lookupCol_setCol_ne _ _ (by decide)]
  exact lookupCol_setCol_self _ _ _

theorem lookupCol_finalEnc_PL (rs : List RawRecord) :
    lookupCol (finalEnc rs) "Party_Life" = some (plCol rs) :=
  lookupCol_setCol_self _ _ _

/-! Claim C2: schema reconciliation. -/

/-- C2: for every schema S and every raw record set, preprocess_data with
training_columns = S succeeds and returns a table whose columns are exactly
S, in S's order (so every encoded column outside S is dropped), and every
schema column that the freshly encoded table lacks is filled with 0 for all
rows. -/
theorem C2_encode_reconciliation (rs : List RawRecord) (S : List String) :
    (preprocess_data (toDF rs) (some S)).map colNames = some S
    ∧ ∀ c ∈ S, hasCol (finalEnc rs) c = false →
        (preprocess_data (toDF rs) (some S)).bind (fun d => lookupCol d c)
        = some (List.replicate rs.length (Val.num 0)) := by
  constructor
  · rw [preprocess_toDF_some]
    simp only [Option.map_some']
    rw [colNames_keyedMap]
  · intro c hc hf
    rw [preprocess_toDF_some, Option.some_bind, lookupCol_keyedMap _ hc,
      lookupCol_addMissing_of_missing hf hc, nrows_finalEnc]
    simp

/-- A concrete record used to instantiate the universal theorems; its
schoolsup value "maybe" lies outside the yes/no mapping domain. -/
def recNoDomain : RawRecord :=
  { StudentID := "S1", FirstName := "Ana", FamilyName := "Ba", sex := "F",
    address := "U", famsize := "LE3", Pstatus := "T", Medu := 2, Fedu := 2,
    Mjob := "teacher", Fjob := "services", reason := "home",
    guardian := "mother", studytime := 1, schoolsup := "maybe",
    famsup := "no", paid := "no", activities := "no", nursery := "yes",
    higher := "yes", internet := "yes", romantic := "no", goout := 5,
    Dalc := 3, Walc := 4, absences := 10, FinalGrade := 10 }

/-- C2 witness: at a one-record set and the two-name schema
["Medu", "Unknown_Col"], the reconciled output holds the all-zero column
for the name the encoder never produces. -/
theorem C2_encode_reconciliation_witness :
    ("Unknown_Col" ∈ ["Medu", "Unknown_Col"]
      ∧ hasCol (finalEnc [recNoDomain]) "Unknown_Col" = false)
    ∧ (preprocess_data (toDF [recNoDomain]) (some ["Medu", "Unknown_Col"])).bind
        (fun d => lookupCol d "Unknown_Col")
      = some (List.replicate 1 (Val.num 0)) := by
  refine ⟨⟨by decide, by decide⟩, ?_⟩
  exact (C2_encode_reconciliation [recNoDomain] ["Medu", "Unknown_Col"]).2
    "Unknown_Col" (by decide) (by decide)

/-! Claim C1: out-of-domain categorical values. -/

/-- C1 (amended): a categorical value outside the fixed mapping domain does
not make preprocess_data fail; the encoder always succeeds on a raw-record
dataframe, and the out-of-domain cell is encoded as NaN (here shown on the
schoolsup column: yes goes to 1, no goes to 0, anything else to NaN). -/
theorem C1_out_of_domain_nan (rs : List RawRecord) :
    preprocess_data (toDF rs) none = some (finalEnc rs)
    ∧ lookupCol (finalEnc rs) "schoolsup"
      = some (rs.map (fun r =>
          if r.schoolsup = "yes" then Val.num 1
          else if r.schoolsup = "no" then Val.num 0 else Val.na)) := by
  refine ⟨encodeSteps_toDF rs, ?_⟩
  rw [lookupCol_finalEnc_schoolsup]
  congr 1
  unfold mCol sCol
  rw [List.map_map]
  apply List.map_congr_left
  intro r _
  by_cases h1 : r.schoolsup = "yes"
  · simp [mapVal, BINARY_MAPPING, List.find?, Function.comp, h1]
  · by_cases h2 : r.schoolsup = "no"
    · simp [mapVal, BINARY_MAPPING, List.find?, Function.comp, h1, h2]
    · have h1' : "yes" ≠ r.schoolsup := fun h => h1 h.symm
      have h2' : "no" ≠ r.schoolsup := fun h => h2 h.symm
      simp [mapVal, BINARY_MAPPING, List.find?, Function.comp, h1, h2, h1', h2']

/-- C1 counterexample: on a record whose schoolsup is "maybe" (outside the
yes/no domain), preprocess_data does not fail: it produces an encoded table
whose schoolsup cell is NaN. -/
theorem C1_counterexample :
    (recNoDomain.schoolsup = "yes" ∨ recNoDomain.schoolsup = "no") = False
    ∧ (preprocess_data (toDF [recNoDomain]) none).isSome = true
    ∧ (preprocess_data (toDF [recNoDomain]) none).bind
        (fun d => lookupCol d "schoolsup") = some [Val.na] := by
  refine ⟨by simp [recNoDomain], ?_, ?_⟩
  · rw [preprocess_data_none, encodeSteps_toDF]
    rfl
  · rw [preprocess_data_none, encodeSteps_toDF, Option.some_bind,
      lookupCol_finalEnc_schoolsup]
    decide

/-! Claims C3 and C4: the dashboard metrics. -/

theorem exists_of_mem_zipWith {α β γ : Type} {f : α → β → γ} {l₁ : List α}
    {l₂ : List β} {c : γ} (h : c ∈ List.zipWith f l₁ l₂) : ∃ a b, c = f a b := by
  induction l₁ generalizing l₂ with
  | nil => simp at h
  | cons a as ih =>
    cases l₂ with
    | nil => simp at h
    | cons b bs =>
      rcases List.mem_cons.mp h with he | hm
      · exact ⟨a, b, he⟩
      · exact ih hm

theorem compute_margin_eq (pot act : List ℚ) :
    compute_margin (pot.map Val.num) (act.map Val.num)
    = List.zipWith (fun p a => Val.num (max 0 (p - a))) pot act := by
  induction pot generalizing act with
  | nil => simp [compute_margin]
  | cons p ps ih =>
    cases act with
    | nil => simp [compute_margin]
    | cons a as =>
      have ht := ih as
      simp only [compute_margin, List.map_cons, List.zipWith_cons_cons] at ht ⊢
      rw [ht]
      congr 1
      simp [subV, clip0, max_comm]

/-- C3: for parallel potential-grade and actual-grade sequences, the
Improvability_Margin column equals max(0, potential - actual) entrywise
(the subtraction of line 122 followed by the lower=0 clip of line 125); in
particular every margin cell is a non-negative number. -/
theorem C3_margin_clip (pot act : List ℚ) :
    compute_margin (pot.map Val.num) (act.map Val.num)
      = List.zipWith (fun p a => Val.num (max 0 (p - a))) pot act
    ∧ ∀ q : ℚ, Val.num q ∈ compute_margin (pot.map Val.num) (act.map Val.num) →
        0 ≤ q := by
  refine ⟨compute_margin_eq pot act, ?_⟩
  intro q hq
  rw [compute_margin_eq pot act] at hq
  rcases exists_of_mem_zipWith hq with ⟨p, a, hpa⟩
  have : q = max 0 (p - a) := by
    injection hpa
  rw [this]
  exact le_max_left 0 (p - a)

/-- C3 witness: at potential 15 and actual 18 the margin cell is the number
0, and the non-negativity part applies to it. -/
theorem C3_margin_clip_witness :
    Val.num 0 ∈ compute_margin ([(15 : ℚ)].map Val.num) ([(18 : ℚ)].map Val.num)
    ∧ 0 ≤ (0 : ℚ) := by
  have hm : Val.num 0 ∈ compute_margin ([(15 : ℚ)].map Val.num)
      ([(18 : ℚ)].map Val.num) := by
    simp only [compute_margin, List.map_cons, List.map_nil,
      List.zipWith_cons_cons, List.zipWith_nil_right, subV, clip0]
    rw [max_eq_right (by norm_num : (15 : ℚ) - 18 ≤ 0)]
    simp
  exact ⟨hm, (C3_margin_clip [15] [18]).2 0 hm⟩

/-- C4: the Complexity_Score column is 1 - margin / 20 entrywise, with no
further clamping; a margin of 0 yields complexity exactly 1, as in the
spec example actual=18, potential=15 (margin clipped to 0). -/
theorem C4_complexity_formula (margins : List ℚ) :
    compute_complexity (margins.map Val.num)
      = margins.map (fun m => Val.num (1 - m / 20))
    ∧ compute_margin ([(15 : ℚ)].map Val.num) ([(18 : ℚ)].map Val.num)
      = [Val.num 0]
    ∧ compute_complexity [Val.num 0] = [Val.num 1] := by
  refine ⟨?_, ?_, ?_⟩
  · simp [compute_complexity, List.map_map, Function.comp, subV, divC]
  · rw [compute_margin_eq]
    simp only [List.zipWith_cons_cons, List.zipWith_nil_right]
    rw [max_eq_left (by norm_num : (15 : ℚ) - 18 ≤ 0)]
  · simp [compute_complexity, subV, divC]

/-! Claim C5: the counterfactual profile generator. -/

theorem hasCol_toDF_studytime (rs : List RawRecord) :
    hasCol (toDF rs) "studytime" = true := by simp [toDF, hasCol]

theorem hasCol_toDF_Dalc (rs : List RawRecord) :
    hasCol (toDF rs) "Dalc" = true := by simp [toDF, hasCol]

theorem hasCol_toDF_Walc (rs : List RawRecord) :
    hasCol (toDF rs) "Walc" = true := by simp [toDF, hasCol]

theorem hasCol_toDF_absences (rs : List RawRecord) :
    hasCol (toDF rs) "absences" = true := by simp [toDF, hasCol]

theorem hasCol_toDF_goout (rs : List RawRecord) :
    hasCol (toDF rs) "goout" = true := by simp [toDF, hasCol]

theorem nrows_toDF (rs : List RawRecord) : nrows (toDF rs) = rs.length := by
  simp [toDF, nrows, sCol]

/-- C5: create_ideal_profile keeps the column set and order, overrides
studytime to 4, Dalc to 1, Walc to 1, absences to 0, goout to 2 for every
row unconditionally, and leaves every other column (identifier, names,
FinalGrade, all remaining features) exactly as in the input. The input
dataframe itself is untouched: the function is pure and returns a fresh
value. -/
theorem C5_idealize (rs : List RawRecord) :
    colNames (create_ideal_profile (toDF rs)) = colNames (toDF rs)
    ∧ lookupCol (create_ideal_profile (toDF rs)) "studytime"
        = some (List.replicate rs.length (Val.num 4))
    ∧ lookupCol (create_ideal_profile (toDF rs)) "Dalc"
        = some (List.replicate rs.length (Val.num 1))
    ∧ lookupCol (create_ideal_profile (toDF rs)) "Walc"
        = some (List.replicate rs.length (Val.num 1))
    ∧ lookupCol (create_ideal_profile (toDF rs)) "absences"
        = some (List.replicate rs.length (Val.num 0))
    ∧ lookupCol (create_ideal_profile (toDF rs)) "goout"
        = some (List.replicate rs.length (Val.num 2))
    ∧ ∀ c, c ∉ ["studytime", "Dalc", "Walc", "absences", "goout"] →
        lookupCol (create_ideal_profile (toDF rs)) c = lookupCol (toDF rs) c := by
  have hmono : ∀ (d : DF) (c c' : String) (v : List Val),
      hasCol d c = true → hasCol (setCol d c' v) c = true :=
    fun d c c' v h => hasCol_setCol_mono c' v h
  unfold create_ideal_profile
  rw [nrows_toDF]
  refine ⟨?_, ?_, ?_, ?_, ?_, ?_, ?_⟩
  · rw [colNames_setCol_of_hasCol _
        (hmono _ _ _ _ (hmono _ _ _ _ (hmono _ _ _ _ (hmono _ _ _ _
          (hasCol_toDF_goout rs))))),
      colNames_setCol_of_hasCol _
        (hmono _ _ _ _ (hmono _ _ _ _ (hmono _ _ _ _ (hasCol_toDF_absences rs)))),
      colNames_setCol_of_hasCol _
        (hmono _ _ _ _ (hmono _ _ _ _ (hasCol_toDF_Walc rs))),
      colNames_setCol_of_hasCol _ (hmono _ _ _ _ (hasCol_toDF_Dalc rs)),
      colNames_setCol_of_hasCol _ (hasCol_toDF_studytime rs)]
  · rw [lookupCol_setCol_ne _ _ (by decide), lookupCol_setCol_ne _ _ (by decide),
      lookupCol_setCol_ne _ _ (by decide), lookupCol_setCol_ne _ _ (by decide)]
    exact lookupCol_setCol_self _ _ _
  · rw [lookupCol_setCol_ne _ _ (by decide), lookupCol_setCol_ne _ _ (by decide),
      lookupCol_setCol_ne _ _ (by decide)]
    exact lookupCol_setCol_self _ _ _
  · rw [lookupCol_setCol_ne _ _ (by decide), lookupCol_setCol_ne _ _ (by decide)]
    exact lookupCol_setCol_self _ _ _
  · rw [lookupCol_setCol_ne _ _ (by decide)]
    exact lookupCol_setCol_self _ _ _
  · exact lookupCol_setCol_self _ _ _
  · intro c hc
    simp only [List.mem_cons, List.not_mem_nil, or_false, not_or] at hc
    obtain ⟨h1, h2, h3, h4, h5⟩ := hc
    rw [lookupCol_setCol_ne _ _ h5, lookupCol_setCol_ne _ _ h4,
      lookupCol_setCol_ne _ _ h3, lookupCol_setCol_ne _ _ h2,
      lookupCol_setCol_ne _ _ h1]

/-- C5 witness: on a one-record set, FinalGrade is outside the overridden
columns and passes through unchanged. -/
theorem C5_idealize_witness :
    ("FinalGrade" ∉ ["studytime", "Dalc", "Walc", "absences", "goout"])
    ∧ lookupCol (create_ideal_profile (toDF [recNoDomain])) "FinalGrade"
      = lookupCol (toDF [recNoDomain]) "FinalGrade" :=
  ⟨by decide,
    (C5_idealize [recNoDomain]).2.2.2.2.2.2 "FinalGrade" (by decide)⟩

/-! Claim C6: encode is not idempotent. A successful run of the encoding
steps needs the raw nominal column Mjob (one-hot encoding raises a KeyError
without it), but the encoded output of a reconciliation with a schema that
lacks Mjob has no such column, so the second application fails. -/

theorem hasCol_of_mapCol {df d' : DF} {c : String} {m : List (String × ℚ)}
    (h : mapCol df c m = some d') (x : String) : hasCol d' x = hasCol df x := by
  unfold mapCol at h
  cases hl : lookupCol df c with
  | none => rw [hl] at h; simp at h
  | some col =>
    rw [hl] at h
    simp only [Option.bind_eq_bind, Option.some_bind, Option.pure_def,
      Option.some.injEq] at h
    subst h
    by_cases hx : x = c
    · subst hx
      rw [hasCol_setCol_self]
      exact (hasCol_of_lookupCol_eq_some hl).symm
    · exact hasCol_setCol_ne df _ hx

theorem hasCol_of_foldlM {m : List (String × ℚ)} :
    ∀ (cs : List String) {df d' : DF},
      cs.foldlM (fun d c => mapCol d c m) df = some d' →
      ∀ x, hasCol d' x = hasCol df x := by
  intro cs
  induction cs with
  | nil =>
    intro df d' h x
    simp only [List.foldlM_nil, Option.pure_def, Option.some.injEq] at h
    rw [h]
  | cons c cs ih =>
    intro df d' h x
    rw [List.foldlM_cons] at h
    rcases Option.bind_eq_some.mp h with ⟨d2, h2, hrest⟩
    rw [ih hrest x, hasCol_of_mapCol h2 x]

theorem hasCol_dropCols_imp {df : DF} {names : List String} {x : String}
    (h : hasCol (dropCols df names) x = true) : hasCol df x = true := by
  unfold hasCol dropCols at *
  rcases List.any_eq_true.mp h with ⟨p, hp, hpc⟩
  exact List.any_eq_true.mpr ⟨p, (List.mem_filter.mp hp).1, hpc⟩

theorem mem_colNames_of_hasCol {df : DF} {c : String}
    (h : hasCol df c = true) : c ∈ colNames df := by
  unfold hasCol at h
  rcases List.any_eq_true.mp h with ⟨p, hp, hpc⟩
  have hc : p.1 = c := of_decide_eq_true hpc
  exact hc ▸ List.mem_map_of_mem (fun p => p.1) hp

theorem encodeSteps_some_requires_Mjob {df x : DF}
    (h : encodeSteps df = some x) : hasCol df "Mjob" = true := by
  unfold encodeSteps at h
  rcases Option.bind_eq_some.mp h with ⟨df2, h2, h'⟩
  rcases Option.bind_eq_some.mp h' with ⟨df3, h3, h''⟩
  rcases Option.bind_eq_some.mp h'' with ⟨df4, h4, h'''⟩
  rcases Option.bind_eq_some.mp h''' with ⟨df5, h5, h4'⟩
  rcases Option.bind_eq_some.mp h4' with ⟨df6, h6, h5'⟩
  rcases Option.bind_eq_some.mp h5' with ⟨df7, h7, _⟩
  have hMj6 : hasCol df6 "Mjob" = true := by
    unfold getDummies at h7
    rcases Option.bind_eq_some.mp h7 with ⟨datas, hla, _⟩
    have : nominal_cols = "Mjob" :: ["Fjob", "reason", "guardian"] := rfl
    rw [this] at hla
    unfold lookupAll at hla
    rcases Option.bind_eq_some.mp hla with ⟨mj, hmj, _⟩
    exact hasCol_of_lookupCol_eq_some hmj
  rw [hasCol_of_mapCol h6 "Mjob", hasCol_of_mapCol h5 "Mjob",
    hasCol_of_mapCol h4 "Mjob", hasCol_of_mapCol h3 "Mjob",
    hasCol_of_foldlM cols_yes_no h2 "Mjob"] at hMj6
  exact hasCol_dropCols_imp hMj6

theorem preprocess_some_requires_Mjob {df x : DF} {t : Option (List String)}
    (h : preprocess_data df t = some x) : hasCol df "Mjob" = true := by
  cases t with
  | none => exact encodeSteps_some_requires_Mjob h
  | some S =>
    rw [preprocess_data_some] at h
    rcases Option.bind_eq_some.mp h with ⟨y, hy, _⟩
    exact encodeSteps_some_requires_Mjob hy

theorem second_encode_fails {S : List String} (hM : "Mjob" ∉ S)
    (rs : List RawRecord) :
    (preprocess_data (toDF rs) (some S)).bind
      (fun d => preprocess_data d (some S)) = none := by
  rw [preprocess_toDF_some, Option.some_bind]
  cases hx : preprocess_data
      (S.map (fun c => (c, (lookupCol (addMissing (finalEnc rs) S) c).getD [])))
      (some S) with
  | none => rfl
  | some x =>
    have hMj := preprocess_some_requires_Mjob hx
    have hmem := mem_colNames_of_hasCol hMj
    rw [colNames_keyedMap] at hmem
    exact absurd hmem hM

/-- C6 (amended): encode with a fixed schema S is not idempotent. Whenever
Mjob is not a column of S (as for any schema produced by training, where
Mjob has been one-hot encoded away), the first application succeeds but
applying encode again to its output raises (none): the one-hot step cannot
find the raw nominal columns. Encoding twice therefore does not yield the
output of encoding once. -/
theorem C6_not_idempotent (rs : List RawRecord) (S : List String)
    (hM : "Mjob" ∉ S) :
    (preprocess_data (toDF rs) (some S)).isSome = true
    ∧ (preprocess_data (toDF rs) (some S)).bind
        (fun d => preprocess_data d (some S)) = none := by
  constructor
  · rw [preprocess_toDF_some]
    rfl
  · exact second_encode_fails hM rs

/-- A concrete trained-model schema: the numeric and mapped columns kept by
training (FinalGrade excluded, nominal raw columns replaced by one-hot
derivatives, derived features included). -/
def trainSchema : List String :=
  ["sex", "address", "famsize", "Pstatus", "Medu", "Fedu", "studytime",
   "schoolsup", "famsup", "paid", "activities", "nursery", "higher",
   "internet", "romantic", "goout", "Dalc", "Walc", "absences",
   "Parent_Edu_Total", "Parent_Edu_Diff", "Total_Alcohol", "Party_Life"]

/-- C6 counterexample: on a concrete record and the concrete training
schema, the first encode succeeds while encoding its output again fails, so
encoding twice does not reproduce the single encoding. -/
theorem C6_counterexample :
    (preprocess_data (toDF [recNoDomain]) (some trainSchema)).isSome = true
    ∧ (preprocess_data (toDF [recNoDomain]) (some trainSchema)).bind
        (fun d => preprocess_data d (some trainSchema)) = none :=
  ⟨by rw [preprocess_toDF_some]; rfl, second_encode_fails (by decide) [recNoDomain]⟩

/-- C6 witness: the amended statement applied at the concrete record and
schema. -/
theorem C6_not_idempotent_witness :
    ("Mjob" ∉ trainSchema)
    ∧ ((preprocess_data (toDF [recNoDomain]) (some trainSchema)).isSome = true
      ∧ (preprocess_data (toDF [recNoDomain]) (some trainSchema)).bind
          (fun d => preprocess_data d (some trainSchema)) = none) :=
  ⟨by decide, C6_not_idempotent [recNoDomain] trainSchema (by decide)⟩

/-! The dashboard pipeline on raw records. -/

/-- Record-level effect of create_ideal_profile: the five actionable habit
fields forced to their optimal constants, everything else untouched. -/
def idealRec (r : RawRecord) : RawRecord :=
  { r with studytime := 4, Dalc := 1, Walc := 1, absences := 0, goout := 2 }

theorem map_const_replicate {α β : Type} (l : List α) (b : β) :
    List.map (fun _ => b) l = List.replicate l.length b := by
  induction l with
  | nil => rfl
  | cons a t ih => simp [List.replicate_succ, ih]

theorem idealProfile_toDF (rs : List RawRecord) :
    create_ideal_profile (toDF rs) = toDF (rs.map idealRec) := by
  unfold create_ideal_profile
  rw [nrows_toDF]
  simp only [toDF, setCol, hasCol, sCol, nCol]
  simp [idealRec, List.map_map, Function.comp]
  refine ⟨?_, ?_, ?_, ?_, ?_⟩
  · exact (map_const_replicate rs (Val.num 4)).symm
  · exact (map_const_replicate rs (Val.num 2)).symm
  · exact (map_const_replicate rs (Val.num 1)).symm
  · exact (map_const_replicate rs (Val.num 1)).symm
  · exact (map_const_replicate rs (Val.num 0)).symm

/-- The four passthrough columns selected from the raw dataframe. -/
def rawIdsDF (rs : List RawRecord) : DF :=
  [("StudentID", sCol (fun r => r.StudentID) rs),
   ("FirstName", sCol (fun r => r.FirstName) rs),
   ("FamilyName", sCol (fun r => r.FamilyName) rs),
   ("FinalGrade", nCol (fun r => r.FinalGrade) rs)]

theorem lookupAll_toDF_ids (rs : List RawRecord) :
    lookupAll (toDF rs) ["StudentID", "FirstName", "FamilyName", "FinalGrade"]
    = some (rawIdsDF rs) := by
  simp [toDF, lookupAll, lookupCol, List.find?, rawIdsDF]

theorem nrows_rawIdsDF (rs : List RawRecord) : nrows (rawIdsDF rs) = rs.length := by
  simp [rawIdsDF, nrows, sCol]

/-- The dashboard result table over raw records, given the predictions. -/
def resultsDF (rs : List RawRecord) (pred : List ℚ) : DF :=
  [("StudentID", sCol (fun r => r.StudentID) rs),
   ("FirstName", sCol (fun r => r.FirstName) rs),
   ("FamilyName", sCol (fun r => r.FamilyName) rs),
   ("FinalGrade", nCol (fun r => r.FinalGrade) rs),
   ("Potential_Grade", pred.map (fun q => Val.num (round2 q))),
   ("Improvability_Margin",
     compute_margin (pred.map (fun q => Val.num (round2 q)))
       (nCol (fun r => r.FinalGrade) rs)),
   ("Complexity_Score",
     compute_complexity
       (compute_margin (pred.map (fun q => Val.num (round2 q)))
         (nCol (fun r => r.FinalGrade) rs)))]

/-- The encoded counterfactual table fed to the model. -/
def idealX (rs : List RawRecord) (feats : List String) : DF :=
  feats.map (fun c =>
    (c, (lookupCol (addMissing (finalEnc (rs.map idealRec)) feats) c).getD []))

theorem preprocess_ideal_eq (rs : List RawRecord) (feats : List String) :
    preprocess_data (create_ideal_profile (toDF rs)) (some feats)
    = some (idealX rs feats) := by
  rw [idealProfile_toDF, preprocess_toDF_some]
  rfl

theorem generate_toDF_eq (rs : List RawRecord) (model : DF → List ℚ)
    (feats : List String) {X : DF}
    (hX : preprocess_data (create_ideal_profile (toDF rs)) (some feats) = some X)
    (hlen : (model X).length = rs.length) :
    generate_dashboard_data (toDF rs) model feats
    = some (resultsDF rs (model X)) := by
  simp only [generate_dashboard_data]
  rw [hX]
  simp only [Option.bind_eq_bind, Option.some_bind]
  rw [lookupAll_toDF_ids]
  simp only [Option.some_bind]
  rw [nrows_rawIdsDF, if_pos hlen]
  simp [rawIdsDF, resultsDF, setCol, hasCol, lookupCol, List.find?]

theorem generate_toDF_inv {rs : List RawRecord} {model : DF → List ℚ}
    {feats : List String} {res : DF}
    (h : generate_dashboard_data (toDF rs) model feats = some res) :
    ∃ X, preprocess_data (create_ideal_profile (toDF rs)) (some feats) = some X
      ∧ (model X).length = rs.length
      ∧ res = resultsDF rs (model X) := by
  have hX : ∃ X, preprocess_data (create_ideal_profile (toDF rs)) (some feats)
      = some X := by
    simp only [generate_dashboard_data] at h
    rcases Option.bind_eq_some.mp h with ⟨X, hX, _⟩
    exact ⟨X, hX⟩
  rcases hX with ⟨X, hX⟩
  by_cases hlen : (model X).length = rs.length
  · rw [generate_toDF_eq rs model feats hX hlen] at h
    exact ⟨X, hX, hlen, (Option.some.injEq _ _).mp h.symm⟩
  · exfalso
    simp only [generate_dashboard_data] at h
    rw [hX] at h
    simp only [Option.bind_eq_bind, Option.some_bind] at h
    rw [lookupAll_toDF_ids] at h
    simp only [Option.some_bind] at h
    rw [nrows_rawIdsDF, if_neg hlen] at h
    cases h

/-! Claims C8, C9, C10: the assembled dashboard table. -/

/-- A fully in-domain concrete record matching the spec's end-to-end
example: studytime 1, Dalc 3, Walc 4, absences 10, goout 5, Medu 2, Fedu 2,
FinalGrade 10. -/
def recExample : RawRecord :=
  { StudentID := "S2", FirstName := "Iman", FamilyName := "Cd", sex := "F",
    address := "U", famsize := "LE3", Pstatus := "T", Medu := 2, Fedu := 2,
    Mjob := "teacher", Fjob := "services", reason := "home",
    guardian := "mother", studytime := 1, schoolsup := "yes",
    famsup := "no", paid := "no", activities := "no", nursery := "yes",
    higher := "yes", internet := "yes", romantic := "no", goout := 5,
    Dalc := 3, Walc := 4, absences := 10, FinalGrade := 10 }

/-- A stand-in trained model that predicts 14.0 for every row. -/
def constModel14 : DF → List ℚ := fun X => List.replicate (nrows X) 14

/-- C8: the output's StudentID, FirstName, FamilyName and FinalGrade
columns are the verbatim columns of the original raw records (never of the
counterfactual copy, whose identifier and grade columns are anyway
untouched), and the model is applied only to the idealized encoding X: the
Potential_Grade column is the rounded model output on X, while FinalGrade
is never recomputed by the model. -/
theorem C8_passthrough (rs : List RawRecord) (model : DF → List ℚ)
    (feats : List String) (X res : DF)
    (hX : preprocess_data (create_ideal_profile (toDF rs)) (some feats) = some X)
    (hres : generate_dashboard_data (toDF rs) model feats = some res) :
    lookupCol res "StudentID" = some (sCol (fun r => r.StudentID) rs)
    ∧ lookupCol res "FirstName" = some (sCol (fun r => r.FirstName) rs)
    ∧ lookupCol res "FamilyName" = some (sCol (fun r => r.FamilyName) rs)
    ∧ lookupCol res "FinalGrade" = some (nCol (fun r => r.FinalGrade) rs)
    ∧ lookupCol res "Potential_Grade"
        = some ((model X).map (fun q => Val.num (round2 q))) := by
  rcases generate_toDF_inv hres with ⟨X', hX', hlen, rfl⟩
  rw [hX] at hX'
  obtain rfl : X = X' := (Option.some.injEq _ _).mp hX'
  simp [resultsDF, lookupCol, List.find?]

/-- C8 witness: the passthrough property at a concrete record, the constant
model and the concrete training schema. -/
theorem C8_passthrough_witness :
    lookupCol (resultsDF [recExample] (constModel14 (idealX [recExample] trainSchema)))
      "StudentID" = some (sCol (fun r => r.StudentID) [recExample])
    ∧ lookupCol (resultsDF [recExample] (constModel14 (idealX [recExample] trainSchema)))
      "FirstName" = some (sCol (fun r => r.FirstName) [recExample])
    ∧ lookupCol (resultsDF [recExample] (constModel14 (idealX [recExample] trainSchema)))
      "FamilyName" = some (sCol (fun r => r.FamilyName) [recExample])
    ∧ lookupCol (resultsDF [recExample] (constModel14 (idealX [recExample] trainSchema)))
      "FinalGrade" = some (nCol (fun r => r.FinalGrade) [recExample])
    ∧ lookupCol (resultsDF [recExample] (constModel14 (idealX [recExample] trainSchema)))
      "Potential_Grade"
      = some ((constModel14 (idealX [recExample] trainSchema)).map
          (fun q => Val.num (round2 q))) :=
  C8_passthrough [recExample] constModel14 trainSchema
    (idealX [recExample] trainSchema)
    (resultsDF [recExample] (constModel14 (idealX [recExample] trainSchema)))
    (preprocess_ideal_eq [recExample] trainSchema)
    (generate_toDF_eq [recExample] constModel14 trainSchema
      (preprocess_ideal_eq [recExample] trainSchema) (by decide))

/-- C9: Potential_Grade is the model's raw prediction rounded to 2
decimals (np.round, half-to-even), and both Improvability_Margin and
Complexity_Score are computed from the rounded column, not from the raw
predictions. -/
theorem C9_rounded_first (rs : List RawRecord) (model : DF → List ℚ)
    (feats : List String) (X res : DF)
    (hX : preprocess_data (create_ideal_profile (toDF rs)) (some feats) = some X)
    (hres : generate_dashboard_data (toDF rs) model feats = some res) :
    lookupCol res "Potential_Grade"
      = some ((model X).map (fun q => Val.num (round2 q)))
    ∧ lookupCol res "Improvability_Margin"
      = some (compute_margin ((model X).map (fun q => Val.num (round2 q)))
          (nCol (fun r => r.FinalGrade) rs))
    ∧ lookupCol res "Complexity_Score"
      = some (compute_complexity
          (compute_margin ((model X).map (fun q => Val.num (round2 q)))
            (nCol (fun r => r.FinalGrade) rs))) := by
  rcases generate_toDF_inv hres with ⟨X', hX', hlen, rfl⟩
  rw [hX] at hX'
  obtain rfl : X = X' := (Option.some.injEq _ _).mp hX'
  simp [resultsDF, lookupCol, List.find?]

/-- C9 witness: the rounding property at the concrete instantiation. -/
theorem C9_rounded_first_witness :
    lookupCol (resultsDF [recExample] (constModel14 (idealX [recExample] trainSchema)))
      "Potential_Grade"
      = some ((constModel14 (idealX [recExample] trainSchema)).map
          (fun q => Val.num (round2 q)))
    ∧ lookupCol (resultsDF [recExample] (constModel14 (idealX [recExample] trainSchema)))
      "Improvability_Margin"
      = some (compute_margin
          ((constModel14 (idealX [recExample] trainSchema)).map
            (fun q => Val.num (round2 q)))
          (nCol (fun r => r.FinalGrade) [recExample]))
    ∧ lookupCol (resultsDF [recExample] (constModel14 (idealX [recExample] trainSchema)))
      "Complexity_Score"
      = some (compute_complexity
          (compute_margin
            ((constModel14 (idealX [recExample] trainSchema)).map
              (fun q => Val.num (round2 q)))
            (nCol (fun r => r.FinalGrade) [recExample]))) :=
  C9_rounded_first [recExample] constModel14 trainSchema
    (idealX [recExample] trainSchema)
    (resultsDF [recExample] (constModel14 (idealX [recExample] trainSchema)))
    (preprocess_ideal_eq [recExample] trainSchema)
    (generate_toDF_eq [recExample] constModel14 trainSchema
      (preprocess_ideal_eq [recExample] trainSchema) (by decide))

/-- C10: whenever generate_dashboard_data succeeds, the output has exactly
the seven dashboard columns, each of length equal to the number of input
records (one row per record), and the StudentID column lists the records'
identifiers in input order. -/
theorem C10_row_preservation (rs : List RawRecord) (model : DF → List ℚ)
    (feats : List String) (res : DF)
    (h : generate_dashboard_data (toDF rs) model feats = some res) :
    colNames res = ["StudentID", "FirstName", "FamilyName", "FinalGrade",
      "Potential_Grade", "Improvability_Margin", "Complexity_Score"]
    ∧ (∀ p ∈ res, p.2.length = rs.length)
    ∧ lookupCol res "StudentID" = some (sCol (fun r => r.StudentID) rs) := by
  rcases generate_toDF_inv h with ⟨X, hX, hlen, rfl⟩
  refine ⟨by simp [resultsDF, colNames], ?_,
    by simp [resultsDF, lookupCol, List.find?]⟩
  intro p hp
  simp only [resultsDF, List.mem_cons, List.not_mem_nil, or_false] at hp
  rcases hp with rfl | rfl | rfl | rfl | rfl | rfl | rfl
  · simp [sCol]
  · simp [sCol]
  · simp [sCol]
  · simp [nCol]
  · simp [hlen]
  · simp [compute_margin, List.length_zipWith, hlen, nCol]
  · simp [compute_complexity, compute_margin, List.length_zipWith, hlen, nCol]

/-- C10 witness: the column list, one membership instance, and the row
count at the concrete instantiation. -/
theorem C10_row_preservation_witness :
    colNames (resultsDF [recExample] (constModel14 (idealX [recExample] trainSchema)))
      = ["StudentID", "FirstName", "FamilyName", "FinalGrade",
         "Potential_Grade", "Improvability_Margin", "Complexity_Score"]
    ∧ ("StudentID", sCol (fun r => r.StudentID) [recExample])
        ∈ resultsDF [recExample] (constModel14 (idealX [recExample] trainSchema))
    ∧ (sCol (fun r => r.StudentID) [recExample]).length = [recExample].length := by
  have h := C10_row_preservation [recExample] constModel14 trainSchema
    (resultsDF [recExample] (constModel14 (idealX [recExample] trainSchema)))
    (generate_toDF_eq [recExample] constModel14 trainSchema
      (preprocess_ideal_eq [recExample] trainSchema) (by decide))
  exact ⟨h.1, by simp [resultsDF],
    h.2.1 ("StudentID", sCol (fun r => r.StudentID) [recExample])
      (by simp [resultsDF])⟩

/-! Claim C7: the end-to-end example. -/

theorem round2_of_int (n : ℤ) : round2 ((n : ℚ)) = n := by
  unfold round2 roundHalfEven
  have h1 : ((n : ℚ)) * 100 = ((100 * n : ℤ) : ℚ) := by push_cast; ring
  rw [h1, Int.floor_intCast, sub_self, if_pos (by norm_num : (0 : ℚ) < 1/2)]
  push_cast
  ring

theorem round2_14 : round2 (14 : ℚ) = 14 := by
  have h := round2_of_int 14
  norm_num at h
  exact h

theorem margin_recExample :
    compute_margin
      ((constModel14 (idealX [recExample] trainSchema)).map
        (fun q => Val.num (round2 q)))
      (nCol (fun r => r.FinalGrade) [recExample]) = [Val.num 4] := by
  have hpred : constModel14 (idealX [recExample] trainSchema) = [14] := by decide
  rw [hpred]
  simp [compute_margin, nCol, recExample, subV, clip0, round2_14]
  rw [show (14 : ℚ) - 10 = 4 by norm_num,
    max_eq_left (by norm_num : (0 : ℚ) ≤ 4)]

/-- C7: on the spec's example record (studytime 1, Dalc 3, Walc 4,
absences 10, goout 5, Medu 2, Fedu 2, FinalGrade 10), the idealized copy
has studytime 4, Dalc 1, Walc 1, absences 0, goout 2; its encoding
recomputes Total_Alcohol = 1 + 2·1 = 3 and Party_Life = 3·3·2 = 18 from the
overridden raw values; and with a model that predicts 14.0 for the
idealized row, the pipeline outputs Improvability_Margin 4.0 and
Complexity_Score 0.8. -/
theorem C7_end_to_end :
    lookupCol (create_ideal_profile (toDF [recExample])) "studytime"
      = some [Val.num 4]
    ∧ lookupCol (create_ideal_profile (toDF [recExample])) "Dalc"
      = some [Val.num 1]
    ∧ lookupCol (create_ideal_profile (toDF [recExample])) "Walc"
      = some [Val.num 1]
    ∧ lookupCol (create_ideal_profile (toDF [recExample])) "absences"
      = some [Val.num 0]
    ∧ lookupCol (create_ideal_profile (toDF [recExample])) "goout"
      = some [Val.num 2]
    ∧ (preprocess_data (create_ideal_profile (toDF [recExample]))
        (some trainSchema)).bind (fun d => lookupCol d "Total_Alcohol")
      = some [Val.num 3]
    ∧ (preprocess_data (create_ideal_profile (toDF [recExample]))
        (some trainSchema)).bind (fun d => lookupCol d "Party_Life")
      = some [Val.num 18]
    ∧ (generate_dashboard_data (toDF [recExample]) constModel14 trainSchema).bind
        (fun d => lookupCol d "Improvability_Margin") = some [Val.num 4]
    ∧ (generate_dashboard_data (toDF [recExample]) constModel14 trainSchema).bind
        (fun d => lookupCol d "Complexity_Score") = some [Val.num (4/5)] := by
  refine ⟨by decide, by decide, by decide, by decide, by decide, ?_, ?_, ?_, ?_⟩
  · rw [preprocess_ideal_eq, Option.some_bind]
    simp only [idealX]
    rw [lookupCol_keyedMap _ (by decide : "Total_Alcohol" ∈ trainSchema),
      lookupCol_addMissing_of_hasCol trainSchema (by decide),
      lookupCol_finalEnc_TA]
    simp [taCol, nCol, idealRec, recExample, addV, mulV]
    norm_num
  · rw [preprocess_ideal_eq, Option.some_bind]
    simp only [idealX]
    rw [lookupCol_keyedMap _ (by decide : "Party_Life" ∈ trainSchema),
      lookupCol_addMissing_of_hasCol trainSchema (by decide),
      lookupCol_finalEnc_PL]
    simp [plCol, taCol, nCol, idealRec, recExample, addV, mulV]
    norm_num
  · rw [generate_toDF_eq [recExample] constModel14 trainSchema
      (preprocess_ideal_eq [recExample] trainSchema) (by decide),
      Option.some_bind]
    have hl : lookupCol
        (resultsDF [recExample] (constModel14 (idealX [recExample] trainSchema)))
        "Improvability_Margin"
        = some (compute_margin
            ((constModel14 (idealX [recExample] trainSchema)).map
              (fun q => Val.num (round2 q)))
            (nCol (fun r => r.FinalGrade) [recExample])) := by
      simp [resultsDF, lookupCol, List.find?]
    rw [hl, margin_recExample]
  · rw [generate_toDF_eq [recExample] constModel14 trainSchema
      (preprocess_ideal_eq [recExample] trainSchema) (by decide),
      Option.some_bind]
    have hl : lookupCol
        (resultsDF [recExample] (constModel14 (idealX [recExample] trainSchema)))
        "Complexity_Score"
        = some (compute_complexity
            (compute_margin
              ((constModel14 (idealX [recExample] trainSchema)).map
                (fun q => Val.num (round2 q)))
              (nCol (fun r => r.FinalGrade) [recExample]))) := by
      simp [resultsDF, lookupCol, List.find?]
    rw [hl, margin_recExample]
    simp [compute_complexity, subV, divC]
    norm_num

end StudentDash
